import Mathlib

/-!
Verification of the two icon-generation scripts of this repository:
`src-tauri/icons/gen_win_icons.py` and `src-tauri/icons/create_ico.py`.

The scripts are embedded shallowly:
* the filesystem is an association list from filenames to file contents;
* PIL images are records of width, height, mode and abstract pixel data;
  `Image.resize` produces an image of the requested dimensions and
  `Image.convert "RGBA"` sets the mode, both preserving the abstract data;
* the external SVG renderer (`svglib.svg2rlg` and `reportlab.renderPM`)
  is a parameter of every definition that uses it: `svg2rlg` maps file
  contents to an optional drawing (`none` models a parse failure) and
  `renderPM` maps a drawing and a dpi value to a rendered image of
  arbitrary dimensions;
* saving in ICO format (`IcoImagePlugin._save`) deduplicates and sorts
  the requested sizes, ignores every size wider or taller than the base
  image or larger than 256, and fills each surviving size with the first
  provided frame of exactly that size (falling back to a thumbnail of
  the base); since both scripts pass the smallest frame as base, only
  that frame survives the filter. The 16-bit image-count field of the
  written file is the length of the stored frame list reduced modulo
  2^16;
* every file write, and every file removal, is recorded in an event
  trace so that temporal claims (order of writes and removals) can be
  stated.
-/

/-- A PIL image: dimensions, colour mode and abstract pixel data. -/
structure Img where
  width : Nat
  height : Nat
  mode : String
  data : List Nat
deriving DecidableEq, Repr

/-- `img.size` as in PIL: the pair (width, height). -/
def Img.size (i : Img) : Nat × Nat := (i.width, i.height)

/-- `img.resize((w, h), ...)`: the result has exactly the requested
dimensions; the pixel data is abstracted. -/
def Img.resize (i : Img) (w h : Nat) : Img :=
  { i with width := w, height := h }

/-- `img.convert("RGBA")`: sets the colour mode. -/
def Img.convertRGBA (i : Img) : Img :=
  { i with mode := "RGBA" }

/-- `Image.thumbnail`: scale the image down to fit the given box,
preserving the aspect ratio (Pillow's rounding is approximated by floor
division; in both scripts every surviving size has a provided frame of
exactly that size, so the saver never takes this fallback). -/
def Img.thumbnail (i : Img) (w h : Nat) : Img :=
  if i.width * h ≤ w * i.height then
    { i with width := i.width * h / i.height, height := h }
  else
    { i with width := w, height := i.height * w / i.width }

/-- Python's comparison of size tuples: strict lexicographic order. -/
def pairLt (a b : Nat × Nat) : Prop :=
  a.1 < b.1 ∨ (a.1 = b.1 ∧ a.2 < b.2)

instance (a b : Nat × Nat) : Decidable (pairLt a b) := by
  unfold pairLt
  infer_instance

/-- Insert a size tuple into an ascending duplicate-free list, keeping
it ascending and duplicate-free. -/
def insSorted (x : Nat × Nat) : List (Nat × Nat) → List (Nat × Nat)
  | [] => [x]
  | y :: ys =>
    if pairLt x y then x :: y :: ys
    else if x = y then y :: ys
    else y :: insSorted x ys

/-- Python's `sorted(set(l))` on size tuples, as used by Pillow's ICO
saver: ascending lexicographic order, duplicates removed. -/
def sortedSet (l : List (Nat × Nat)) : List (Nat × Nat) :=
  l.foldr insSorted []

/-- Pillow's ICO save (`IcoImagePlugin._save`) as invoked by
`Image.save(..., format='ICO', sizes=..., append_images=...)`: the
requested sizes are deduplicated and sorted; every size wider or taller
than the base image, or larger than 256, is ignored ("Any sizes bigger
than the original size or 256 will be ignored"); each surviving size is
filled with the first provided frame (the base image first, then the
appended images) of exactly that size, or with a thumbnail of the base
when no provided frame matches. The written ICO holds exactly these
frames, and its image-count field is their number. -/
def icoSaveFrames (base : Img) (append : List Img)
    (saveSizes : List (Nat × Nat)) : List Img :=
  ((sortedSet saveSizes).filter (fun sz =>
      decide (sz.1 ≤ base.width ∧ sz.2 ≤ base.height ∧ sz.1 ≤ 256 ∧ sz.2 ≤ 256))).map
    (fun sz =>
      match (base :: append).find? (fun im => decide (Img.size im = sz)) with
      | some im => im
      | none => base.thumbnail sz.1 sz.2)

/-- A reportlab drawing as produced by `svg2rlg`: intrinsic width and
height (floats, modelled as rationals), the accumulated scale transform
of each axis, and abstract vector content. -/
structure Drawing where
  width : Rat
  height : Rat
  scaleX : Rat
  scaleY : Rat
  content : List Nat
deriving DecidableEq, Repr

/-- Contents of a file on disk: raw bytes (e.g. an SVG), a single raster
image (a PNG), or an ICO container holding a list of images. -/
inductive FileData where
  | bytes (b : List Nat)
  | png (img : Img)
  | ico (imgs : List Img)
deriving DecidableEq, Repr

/-- The filesystem: an association list from filenames to contents. -/
abbrev FS := List (String × FileData)

/-- Look a filename up in the filesystem. -/
def getFile (fs : FS) (name : String) : Option FileData :=
  match fs with
  | [] => none
  | (n, d) :: rest => if n = name then some d else getFile rest name

/-- Write a file: replace the entry if the name exists, append otherwise. -/
def setFile (fs : FS) (name : String) (d : FileData) : FS :=
  match fs with
  | [] => [(name, d)]
  | (n, e) :: rest => if n = name then (n, d) :: rest else (n, e) :: setFile rest name d

/-- `os.remove`: drop every entry with the given name. -/
def removeFile (fs : FS) (name : String) : FS :=
  match fs with
  | [] => []
  | (n, e) :: rest => if n = name then removeFile rest name else (n, e) :: removeFile rest name

/-- A filesystem event: a file write or a file removal. -/
inductive Event where
  | write (name : String)
  | remove (name : String)
deriving DecidableEq, Repr

/-- Script state: the filesystem, the console output so far, and the
trace of filesystem events so far. -/
structure St where
  fs : FS
  out : List String
  events : List Event
deriving DecidableEq, Repr

/-- Write a file and record the event. -/
def St.writeF (st : St) (name : String) (d : FileData) : St :=
  { st with fs := setFile st.fs name d, events := st.events ++ [Event.write name] }

/-- Remove a file and record the event. -/
def St.removeF (st : St) (name : String) : St :=
  { st with fs := removeFile st.fs name, events := st.events ++ [Event.remove name] }

/-- Print a line to the console. -/
def St.print (st : St) (line : String) : St :=
  { st with out := st.out ++ [line] }

/-- The filename `icon-win-{size}.png`. -/
def iconWinPng (size : Nat) : String :=
  "icon-win-" ++ toString size ++ ".png"

/-- The per-size application icon sizes of `gen_win_icons` (`sizes`). -/
def sizes : List Nat := [16, 24, 32, 48, 64, 128, 256]

/-- The ICO member sizes (`ico_sizes`, identical in both scripts). -/
def ico_sizes : List Nat := [16, 24, 32, 48, 64, 256]

/-- The temporary files of `gen_win_icons` (`temp_files`). -/
def temp_files : List String := sizes.map iconWinPng

/-- The Windows Store icon table of `gen_win_icons` (`store_sizes`). -/
def store_sizes : List (String × Nat) :=
  [("Square30x30Logo-win.png", 30),
   ("Square44x44Logo-win.png", 44),
   ("Square71x71Logo-win.png", 71),
   ("Square89x89Logo-win.png", 89),
   ("Square107x107Logo-win.png", 107),
   ("Square142x142Logo-win.png", 142),
   ("Square150x150Logo-win.png", 150),
   ("Square284x284Logo-win.png", 284),
   ("Square310x310Logo-win.png", 310),
   ("StoreLogo-win.png", 50)]

/-- The general icon table of `gen_win_icons` (`general_icons`). -/
def general_icons : List (String × Nat) :=
  [("32x32-win.png", 32),
   ("64x64-win.png", 64),
   ("128x128-win.png", 128),
   ("256x256-win.png", 256)]

/-- The uniform scale factor of `svg_to_png`:
`scale = min(size / drawing.width, size / drawing.height)`. -/
def uscale (d : Drawing) (size : Nat) : Rat :=
  min ((size : Rat) / d.width) ((size : Rat) / d.height)

/-- The drawing after `svg_to_png` mutates it: width and height are set
to `size` and `drawing.scale(scale, scale)` multiplies both axes of the
transform by the same factor `uscale d size`. -/
def scaledDrawing (d : Drawing) (size : Nat) : Drawing :=
  { d with
    width := (size : Rat),
    height := (size : Rat),
    scaleX := d.scaleX * uscale d size,
    scaleY := d.scaleY * uscale d size }

/-- The dpi argument of `renderPM.drawToFile`:
`72 * (size / max(drawing.width, drawing.height) * scale)`, evaluated
after the drawing's width and height were both set to `size`. -/
def renderDpi (d : Drawing) (size : Nat) : Rat :=
  72 * ((size : Rat) / max (scaledDrawing d size).width (scaledDrawing d size).height
        * uscale d size)

section Scripts

variable (svg2rlg : FileData → Option Drawing)
variable (renderPM : Drawing → Rat → Img)

/-- `gen_win_icons.svg_to_png`: parse the SVG (raising on a missing file
or a parse failure), scale the drawing uniformly, render it to the
output path, then reopen the output and, when its dimensions differ from
`(size, size)`, resize it to exactly `(size, size)` and save again. -/
def svg_to_png (st : St) (svg_path png_path : String) (size : Nat) :
    Except String St :=
  match getFile st.fs svg_path with
  | none => Except.error ("FileNotFoundError: " ++ svg_path)
  | some content =>
    match svg2rlg content with
    | none => Except.error ("Failed to parse SVG: " ++ svg_path)
    | some drawing =>
      let rendered := renderPM (scaledDrawing drawing size) (renderDpi drawing size)
      let st1 := st.writeF png_path (FileData.png rendered)
      let img := rendered
      if img.size = (size, size) then Except.ok st1
      else Except.ok (st1.writeF png_path (FileData.png (img.resize size size)))

/-- The `for size in sizes` loop of `gen_win_icons.main`: generate each
temporary `icon-win-{size}.png` and print a line for it. -/
def genSizesLoop (st : St) : List Nat → Except String St
  | [] => Except.ok st
  | size :: rest => do
    let st1 ← svg_to_png svg2rlg renderPM st "icon-win.svg" (iconWinPng size) size
    genSizesLoop (st1.print ("Generated " ++ iconWinPng size)) rest

/-- The ICO-assembly loop of `gen_win_icons.main`: `Image.open` each
`icon-win-{size}.png` (raising if missing or not an image) and convert
it to RGBA. -/
def genIcoLoad (fs : FS) : List Nat → Except String (List Img)
  | [] => Except.ok []
  | size :: rest =>
    match getFile fs (iconWinPng size) with
    | some (FileData.png img) => do
      let imgs ← genIcoLoad fs rest
      Except.ok (Img.convertRGBA img :: imgs)
    | some _ => Except.error ("UnidentifiedImageError: " ++ iconWinPng size)
    | none => Except.error ("FileNotFoundError: " ++ iconWinPng size)

/-- The two table-driven loops of `gen_win_icons.main` (Store icons and
general icons): render each filename at its table size and print a line. -/
def genTableLoop (st : St) : List (String × Nat) → Except String St
  | [] => Except.ok st
  | (filename, size) :: rest => do
    let st1 ← svg_to_png svg2rlg renderPM st "icon-win.svg" filename size
    genTableLoop
      (st1.print ("Generated " ++ filename ++ " (" ++ toString size ++ "x" ++ toString size ++ ")"))
      rest

/-- The cleanup loop of `gen_win_icons.main`: remove each temporary file
that exists. -/
def genCleanupLoop (st : St) : List String → St
  | [] => st
  | f :: rest =>
    if (getFile st.fs f).isSome then genCleanupLoop (st.removeF f) rest
    else genCleanupLoop st rest

/-- `gen_win_icons.main` up to (and including) writing `icon-win.ico`
and the Store and general icons — everything before the cleanup loop. -/
def genPhase1 (st : St) : Except String St := do
  let st1 ← genSizesLoop svg2rlg renderPM st sizes
  let st2 ← svg_to_png svg2rlg renderPM st1 "tray-icon-win.svg" "tray-icon-win.png" 32
  let st3 := st2.print "Generated tray-icon-win.png"
  let imgs ← genIcoLoad st3.fs ico_sizes
  match imgs with
  | [] => Except.error "IndexError: list index out of range"
  | base :: others =>
    let st4 := (st3.writeF "icon-win.ico" (FileData.ico
      (icoSaveFrames base others (ico_sizes.map (fun s => (s, s)))))).print
      "Generated icon-win.ico"
    let st5 ← genTableLoop svg2rlg renderPM st4 store_sizes
    genTableLoop svg2rlg renderPM st5 general_icons

/-- `gen_win_icons.main`: phase 1, then the cleanup loop, then the final
console line. -/
def gen_main (st : St) : Except String St := do
  let st1 ← genPhase1 svg2rlg renderPM st
  let st2 := genCleanupLoop (st1) temp_files
  Except.ok (st2.print "Done! Windows icons generated successfully.")

end Scripts

/-- The load loop of `create_ico`: for each size, if `icon-win-{size}.png`
exists, open it (raising if it is not an image), convert it to RGBA,
resize it when its dimensions differ from `(size, size)`, collect it and
print a `Loaded` line; otherwise print a warning and skip it. -/
def createIcoLoad (fs : FS) : List Nat → Except String (List Img × List String)
  | [] => Except.ok ([], [])
  | size :: rest =>
    if (getFile fs (iconWinPng size)).isSome then
      match getFile fs (iconWinPng size) with
      | some (FileData.png img0) => do
        let img1 := Img.convertRGBA img0
        let img := if img1.size = (size, size) then img1 else img1.resize size size
        let (imgs, out) ← createIcoLoad fs rest
        Except.ok (img :: imgs,
          ("Loaded " ++ iconWinPng size ++ ": " ++ toString img.size) :: out)
      | some _ => Except.error ("UnidentifiedImageError: " ++ iconWinPng size)
      | none => Except.error ("FileNotFoundError: " ++ iconWinPng size)
    else do
      let (imgs, out) ← createIcoLoad fs rest
      Except.ok (imgs, ("Warning: " ++ iconWinPng size ++ " not found") :: out)

/-- Byte size of a file, for `os.path.getsize`: a PNG is its data, an
ICO is the 6-byte header, one 16-byte directory entry per image and each
image's data, raw bytes are themselves. -/
def fileSize : FileData → Nat
  | FileData.bytes b => b.length
  | FileData.png i => i.data.length
  | FileData.ico imgs => 6 + imgs.foldl (fun a i => a + 16 + i.data.length) 0

/-- The 16-bit little-endian image-count field at byte offset 4 of an
ICO file, as read back by the verification step of `create_ico`. -/
def icoCountField : FileData → Option Nat
  | FileData.ico imgs => some (imgs.length % 2 ^ 16)
  | _ => none

/-- The module body of `create_ico`: load the existing inputs; if any
were loaded, hand all of them to Pillow's ICO save for `icon-win.ico`
(the first as base, the rest via `append_images`, the requested sizes
being the images' own sizes — the saver then keeps only sizes not
exceeding the base), and print the byte size and the image-count field
read back from the written file; otherwise print `No images found!`. -/
def create_ico (st : St) : Except String St := do
  let (imgs, out) ← createIcoLoad st.fs ico_sizes
  let st1 := { st with out := st.out ++ out }
  match imgs with
  | [] => Except.ok (st1.print "No images found!")
  | base :: others =>
    let frames := icoSaveFrames base others ((base :: others).map Img.size)
    let st2 := st1.writeF "icon-win.ico" (FileData.ico frames)
    let fsize := fileSize (FileData.ico frames)
    let st3 := st2.print ("Generated icon-win.ico: " ++ toString fsize ++ " bytes")
    match icoCountField (FileData.ico frames) with
    | none => Except.error "struct.error"
    | some count => Except.ok (st3.print ("ICO contains " ++ toString count ++ " images"))

/-! ### Reduction of `Except` binds -/

theorem except_ok_bind {e a b : Type} (x : a) (f : a → Except e b) :
    (Except.ok x >>= f) = f x := rfl

theorem except_error_bind {e a b : Type} (err : e) (f : a → Except e b) :
    ((Except.error err : Except e a) >>= f) = Except.error err := rfl

/-! ### Filesystem lemmas -/

theorem getFile_setFile_self (fs : FS) (n : String) (d : FileData) :
    getFile (setFile fs n d) n = some d := by
  induction fs with
  | nil => simp [setFile, getFile]
  | cons p rest ih =>
    by_cases h : p.1 = n
    · simp [setFile, getFile, h]
    · simp [setFile, getFile, h, ih]

theorem getFile_setFile_ne (fs : FS) (n q : String) (d : FileData) (h : q ≠ n) :
    getFile (setFile fs n d) q = getFile fs q := by
  have h' : n ≠ q := Ne.symm h
  induction fs with
  | nil => simp [setFile, getFile, h']
  | cons p rest ih =>
    by_cases hp : p.1 = n
    · simp [setFile, getFile, hp, h']
    · by_cases hq : p.1 = q
      · simp [setFile, getFile, hp, hq, h]
      · simp [setFile, getFile, hp, hq, ih]

theorem getFile_removeFile_self (fs : FS) (n : String) :
    getFile (removeFile fs n) n = none := by
  induction fs with
  | nil => simp [removeFile, getFile]
  | cons p rest ih =>
    by_cases h : p.1 = n
    · simp [removeFile, h, ih]
    · simp [removeFile, getFile, h, ih]

theorem getFile_removeFile_ne (fs : FS) (n q : String) (h : q ≠ n) :
    getFile (removeFile fs n) q = getFile fs q := by
  induction fs with
  | nil => simp [removeFile]
  | cons p rest ih =>
    by_cases hp : p.1 = n
    · simp [removeFile, getFile, hp, ih, Ne.symm h]
    · by_cases hq : p.1 = q
      · simp [removeFile, getFile, hp, hq, ih, h]
      · simp [removeFile, getFile, hp, hq, ih]

/-! ### Lemmas about `svg_to_png` -/

section ScriptLemmas

variable {svg2rlg : FileData → Option Drawing}
variable {renderPM : Drawing → Rat → Img}

/-- Unfolding of a successful `svg_to_png` call when the SVG file exists
and parses: the rendered image is written, then resized and rewritten if
its dimensions are off. -/
theorem svg_to_png_eq_of {st : St} {sp pp : String} {size : Nat} {c : FileData}
    {d : Drawing} (h1 : getFile st.fs sp = some c) (h2 : svg2rlg c = some d) :
    svg_to_png svg2rlg renderPM st sp pp size =
      (if (renderPM (scaledDrawing d size) (renderDpi d size)).size = (size, size) then
         Except.ok (st.writeF pp
           (FileData.png (renderPM (scaledDrawing d size) (renderDpi d size))))
       else
         Except.ok ((st.writeF pp
             (FileData.png (renderPM (scaledDrawing d size) (renderDpi d size)))).writeF pp
           (FileData.png ((renderPM (scaledDrawing d size) (renderDpi d size)).resize
             size size)))) := by
  unfold svg_to_png
  rw [h1]
  simp only [h2]

/-- `svg_to_png` on a missing SVG file raises. -/
theorem svg_to_png_error_missing {st : St} {sp pp : String} {size : Nat}
    (h1 : getFile st.fs sp = none) :
    svg_to_png svg2rlg renderPM st sp pp size =
      Except.error ("FileNotFoundError: " ++ sp) := by
  unfold svg_to_png
  rw [h1]

/-- Inversion of a successful `svg_to_png` call: only `png_path` is
touched, the written file is a PNG of exactly `(size, size)`, nothing is
printed, and the only events appended are writes. -/
theorem svg_to_png_ok_inv {st st' : St} {sp pp : String} {size : Nat}
    (h : svg_to_png svg2rlg renderPM st sp pp size = Except.ok st') :
    (∀ q, q ≠ pp → getFile st'.fs q = getFile st.fs q) ∧
    (∃ img, getFile st'.fs pp = some (FileData.png img) ∧
      img.width = size ∧ img.height = size) ∧
    st'.out = st.out ∧
    (∃ ev, st'.events = st.events ++ ev ∧ ∀ e ∈ ev, ∃ f, e = Event.write f) := by
  cases hg : getFile st.fs sp with
  | none => rw [svg_to_png_error_missing hg] at h; exact absurd h (by simp)
  | some c =>
    cases hp : svg2rlg c with
    | none =>
      unfold svg_to_png at h
      rw [hg] at h
      simp only [hp] at h
      exact absurd h (by simp)
    | some d =>
      rw [svg_to_png_eq_of hg hp] at h
      split at h
      case isTrue hsize =>
        cases h
        have hwh : (renderPM (scaledDrawing d size) (renderDpi d size)).width = size ∧
            (renderPM (scaledDrawing d size) (renderDpi d size)).height = size := by
          simpa [Img.size, Prod.ext_iff] using hsize
        refine ⟨?_, ⟨renderPM (scaledDrawing d size) (renderDpi d size), ?_, hwh.1, hwh.2⟩,
          rfl, [Event.write pp], rfl, ?_⟩
        · intro q hq
          simp [St.writeF, getFile_setFile_ne _ _ _ _ hq]
        · simp [St.writeF, getFile_setFile_self]
        · intro e he
          simp at he
          exact ⟨pp, he⟩
      case isFalse hsize =>
        cases h
        refine ⟨?_, ⟨(renderPM (scaledDrawing d size) (renderDpi d size)).resize size size,
          ?_, rfl, rfl⟩, rfl, [Event.write pp, Event.write pp], by simp [St.writeF], ?_⟩
        · intro q hq
          simp [St.writeF, getFile_setFile_ne _ _ _ _ hq]
        · simp [St.writeF, getFile_setFile_self, Img.resize]
        · intro e he
          fin_cases he <;> exact ⟨pp, rfl⟩

end ScriptLemmas

/-! ### State projections -/

@[simp] theorem St.print_fs (st : St) (s : String) : (St.print st s).fs = st.fs := rfl

@[simp] theorem St.print_events (st : St) (s : String) :
    (St.print st s).events = st.events := rfl

@[simp] theorem St.print_out (st : St) (s : String) :
    (St.print st s).out = st.out ++ [s] := rfl

@[simp] theorem St.writeF_fs (st : St) (n : String) (d : FileData) :
    (St.writeF st n d).fs = setFile st.fs n d := rfl

@[simp] theorem St.writeF_out (st : St) (n : String) (d : FileData) :
    (St.writeF st n d).out = st.out := rfl

@[simp] theorem St.writeF_events (st : St) (n : String) (d : FileData) :
    (St.writeF st n d).events = st.events ++ [Event.write n] := rfl

@[simp] theorem St.removeF_fs (st : St) (n : String) :
    (St.removeF st n).fs = removeFile st.fs n := rfl

@[simp] theorem St.removeF_out (st : St) (n : String) :
    (St.removeF st n).out = st.out := rfl

@[simp] theorem St.removeF_events (st : St) (n : String) :
    (St.removeF st n).events = st.events ++ [Event.remove n] := rfl

/-! ### Lemmas about the loops of `gen_win_icons.main` -/

section LoopLemmas

variable {svg2rlg : FileData → Option Drawing}
variable {renderPM : Drawing → Rat → Img}

/-- Inversion of a successful run of the per-size loop: files other than
the generated ones are untouched, each generated file is a PNG of
exactly its size (when the generated names are distinct), and only write
events are appended. -/
theorem genSizesLoop_ok_inv {st st' : St} {l : List Nat}
    (h : genSizesLoop svg2rlg renderPM st l = Except.ok st') :
    (∀ q, q ∉ l.map iconWinPng → getFile st'.fs q = getFile st.fs q) ∧
    ((l.map iconWinPng).Nodup →
      ∀ s ∈ l, ∃ img, getFile st'.fs (iconWinPng s) = some (FileData.png img) ∧
        img.width = s ∧ img.height = s) ∧
    (∃ ev, st'.events = st.events ++ ev ∧ ∀ e ∈ ev, ∃ f, e = Event.write f) := by
  induction l generalizing st with
  | nil =>
    cases h
    exact ⟨fun q _ => rfl, fun _ s hs => absurd hs (List.not_mem_nil s),
      ⟨[], by simp, by simp⟩⟩
  | cons s rest ih =>
    rw [genSizesLoop] at h
    cases h1 : svg_to_png svg2rlg renderPM st "icon-win.svg" (iconWinPng s) s with
    | error e => rw [h1] at h; exact absurd h (by simp [except_error_bind])
    | ok st1 =>
      rw [h1] at h
      simp only [except_ok_bind] at h
      obtain ⟨frame1, ⟨img1, hself1, hw1, hh1⟩, _, ev1, hev1, hev1w⟩ :=
        svg_to_png_ok_inv h1
      obtain ⟨frame2, hexact2, ⟨ev2, hev2, hev2w⟩⟩ := ih h
      refine ⟨?_, ?_, ?_⟩
      · intro q hq
        have hq1 : q ≠ iconWinPng s := fun hh => hq (by simp [hh])
        have hq2 : q ∉ rest.map iconWinPng := fun hh => hq (by simp [hh])
        rw [frame2 q hq2]
        simpa using frame1 q hq1
      · intro hnd t ht
        have hnd' : (rest.map iconWinPng).Nodup := (List.nodup_cons.mp (by simpa using hnd)).2
        have hns : iconWinPng s ∉ rest.map iconWinPng :=
          (List.nodup_cons.mp (by simpa using hnd)).1
        rcases List.mem_cons.mp ht with ht | ht
        · subst ht
          refine ⟨img1, ?_, hw1, hh1⟩
          rw [frame2 _ hns]
          simpa using hself1
        · exact hexact2 hnd' t ht
      · refine ⟨ev1 ++ ev2, ?_, ?_⟩
        · rw [hev2]
          simp [hev1, List.append_assoc]
        · intro e he
          rcases List.mem_append.mp he with he | he
          · exact hev1w e he
          · exact hev2w e he

/-- Inversion of a successful run of a table loop (Store icons, general
icons): files other than the table's are untouched, each table file is a
PNG of exactly its table size (when the table names are distinct), and
only write events are appended. -/
theorem genTableLoop_ok_inv {st st' : St} {l : List (String × Nat)}
    (h : genTableLoop svg2rlg renderPM st l = Except.ok st') :
    (∀ q, q ∉ l.map Prod.fst → getFile st'.fs q = getFile st.fs q) ∧
    ((l.map Prod.fst).Nodup →
      ∀ fn sz, (fn, sz) ∈ l → ∃ img, getFile st'.fs fn = some (FileData.png img) ∧
        img.width = sz ∧ img.height = sz) ∧
    (∃ ev, st'.events = st.events ++ ev ∧ ∀ e ∈ ev, ∃ f, e = Event.write f) := by
  induction l generalizing st with
  | nil =>
    cases h
    exact ⟨fun q _ => rfl, fun _ fn sz hs => absurd hs (List.not_mem_nil _),
      ⟨[], by simp, by simp⟩⟩
  | cons entry rest ih =>
    obtain ⟨fn0, sz0⟩ := entry
    rw [genTableLoop] at h
    cases h1 : svg_to_png svg2rlg renderPM st "icon-win.svg" fn0 sz0 with
    | error e => rw [h1] at h; exact absurd h (by simp [except_error_bind])
    | ok st1 =>
      rw [h1] at h
      simp only [except_ok_bind] at h
      obtain ⟨frame1, ⟨img1, hself1, hw1, hh1⟩, _, ev1, hev1, hev1w⟩ :=
        svg_to_png_ok_inv h1
      obtain ⟨frame2, hexact2, ⟨ev2, hev2, hev2w⟩⟩ := ih h
      refine ⟨?_, ?_, ?_⟩
      · intro q hq
        have hq1 : q ≠ fn0 := fun hh => hq (by simp [hh])
        have hq2 : q ∉ rest.map Prod.fst := fun hh => hq (by simp [hh])
        rw [frame2 q hq2]
        simpa using frame1 q hq1
      · intro hnd fn sz ht
        have hnd' : (rest.map Prod.fst).Nodup := (List.nodup_cons.mp (by simpa using hnd)).2
        have hns : fn0 ∉ rest.map Prod.fst :=
          (List.nodup_cons.mp (by simpa using hnd)).1
        rcases List.mem_cons.mp ht with ht | ht
        · rw [Prod.mk.injEq] at ht
          obtain ⟨rfl, rfl⟩ := ht
          refine ⟨img1, ?_, hw1, hh1⟩
          rw [frame2 _ hns]
          simpa using hself1
        · exact hexact2 hnd' fn sz ht
      · refine ⟨ev1 ++ ev2, ?_, ?_⟩
        · rw [hev2]
          simp [hev1, List.append_assoc]
        · intro e he
          rcases List.mem_append.mp he with he | he
          · exact hev1w e he
          · exact hev2w e he

/-- Inversion of a successful ICO-assembly load: each requested size's
file is a PNG on disk and the loaded list is, position by position, its
RGBA conversion. -/
theorem genIcoLoad_ok_inv {fs : FS} {l : List Nat} {imgs : List Img}
    (h : genIcoLoad fs l = Except.ok imgs) :
    List.Forall₂ (fun s img => ∃ img0,
      getFile fs (iconWinPng s) = some (FileData.png img0) ∧
      img = Img.convertRGBA img0) l imgs := by
  induction l generalizing imgs with
  | nil =>
    cases h
    exact List.Forall₂.nil
  | cons s rest ih =>
    rw [genIcoLoad] at h
    cases hgf : getFile fs (iconWinPng s) with
    | none => rw [hgf] at h; exact absurd h (by simp)
    | some fd =>
      rw [hgf] at h
      cases fd with
      | bytes b => exact absurd h (by simp)
      | ico is => exact absurd h (by simp)
      | png img0 =>
        cases h2 : genIcoLoad fs rest with
        | error e => rw [h2] at h; exact absurd h (by simp [except_error_bind])
        | ok rest' =>
          rw [h2] at h
          simp only [except_ok_bind] at h
          cases h
          exact List.Forall₂.cons ⟨img0, hgf, rfl⟩ (ih h2)

end LoopLemmas

/-! ### Lemmas about the cleanup loop -/

theorem genCleanupLoop_fs_none {st : St} {l : List String} {q : String}
    (hq : getFile st.fs q = none) : getFile (genCleanupLoop st l).fs q = none := by
  induction l generalizing st with
  | nil => exact hq
  | cons f rest ih =>
    by_cases hf : (getFile st.fs f).isSome
    · rw [genCleanupLoop, if_pos hf]
      apply ih
      by_cases hqf : q = f
      · subst hqf; simp [getFile_removeFile_self]
      · simp [getFile_removeFile_ne _ _ _ hqf, hq]
    · rw [genCleanupLoop, if_neg hf]
      exact ih hq

theorem genCleanupLoop_fs_mem {st : St} {l : List String} {f : String}
    (hf : f ∈ l) : getFile (genCleanupLoop st l).fs f = none := by
  induction l generalizing st with
  | nil => exact absurd hf (List.not_mem_nil f)
  | cons g rest ih =>
    rcases List.mem_cons.mp hf with hf | hf
    · subst hf
      by_cases hg : (getFile st.fs f).isSome
      · rw [genCleanupLoop, if_pos hg]
        exact genCleanupLoop_fs_none (by simp [getFile_removeFile_self])
      · rw [genCleanupLoop, if_neg hg]
        exact genCleanupLoop_fs_none (Option.not_isSome_iff_eq_none.mp hg)
    · by_cases hg : (getFile st.fs g).isSome
      · rw [genCleanupLoop, if_pos hg]
        exact ih hf
      · rw [genCleanupLoop, if_neg hg]
        exact ih hf

theorem genCleanupLoop_fs_not_mem {st : St} {l : List String} {q : String}
    (hq : q ∉ l) : getFile (genCleanupLoop st l).fs q = getFile st.fs q := by
  induction l generalizing st with
  | nil => rfl
  | cons f rest ih =>
    have hq1 : q ≠ f := fun hh => hq (by simp [hh])
    have hq2 : q ∉ rest := fun hh => hq (by simp [hh])
    by_cases hf : (getFile st.fs f).isSome
    · rw [genCleanupLoop, if_pos hf, ih hq2]
      simp [getFile_removeFile_ne _ _ _ hq1]
    · rw [genCleanupLoop, if_neg hf]
      exact ih hq2

theorem genCleanupLoop_out (st : St) (l : List String) :
    (genCleanupLoop st l).out = st.out := by
  induction l generalizing st with
  | nil => rfl
  | cons f rest ih =>
    by_cases hf : (getFile st.fs f).isSome
    · rw [genCleanupLoop, if_pos hf, ih _]
      rfl
    · rw [genCleanupLoop, if_neg hf]
      exact ih _

theorem genCleanupLoop_events (st : St) (l : List String) :
    ∃ ev, (genCleanupLoop st l).events = st.events ++ ev ∧
      (∀ e ∈ ev, ∃ f, e = Event.remove f ∧ f ∈ l) ∧
      (l.Nodup → ∀ f ∈ l, (getFile st.fs f).isSome → Event.remove f ∈ ev) := by
  induction l generalizing st with
  | nil => exact ⟨[], by simp [genCleanupLoop], by simp, by simp⟩
  | cons g rest ih =>
    by_cases hg : (getFile st.fs g).isSome
    · rw [genCleanupLoop, if_pos hg]
      obtain ⟨ev, hev, hrem, hall⟩ := ih (st.removeF g)
      refine ⟨Event.remove g :: ev, ?_, ?_, ?_⟩
      · rw [hev]
        simp
      · intro e he
        rcases List.mem_cons.mp he with he | he
        · exact ⟨g, he, List.mem_cons_self g rest⟩
        · obtain ⟨f, hf1, hf2⟩ := hrem e he
          exact ⟨f, hf1, List.mem_cons_of_mem g hf2⟩
      · intro hnd f hfmem hfsome
        rcases List.mem_cons.mp hfmem with hfeq | hfr
        · subst hfeq
          exact List.mem_cons_self _ _
        · have hne : f ≠ g := by
            intro hh
            subst hh
            exact (List.nodup_cons.mp hnd).1 hfr
          have hfs : (getFile (st.removeF g).fs f).isSome := by
            simpa [getFile_removeFile_ne _ _ _ hne] using hfsome
          exact List.mem_cons_of_mem _
            (hall (List.nodup_cons.mp hnd).2 f hfr hfs)
    · rw [genCleanupLoop, if_neg hg]
      obtain ⟨ev, hev, hrem, hall⟩ := ih st
      refine ⟨ev, hev, ?_, ?_⟩
      · intro e he
        obtain ⟨f, hf1, hf2⟩ := hrem e he
        exact ⟨f, hf1, List.mem_cons_of_mem g hf2⟩
      · intro hnd f hf hfs
        rcases List.mem_cons.mp hf with hf | hf
        · subst hf
          exact absurd hfs hg
        · exact hall (List.nodup_cons.mp hnd).2 f hf hfs

/-- Inversion of a bind in `Except` that returned `ok`. -/
theorem except_bind_ok {e a b : Type} {x : Except e a} {f : a → Except e b} {y : b}
    (h : (x >>= f) = Except.ok y) : ∃ z, x = Except.ok z ∧ f z = Except.ok y := by
  cases x with
  | error err => rw [except_error_bind] at h; exact absurd h (by simp)
  | ok z =>
    rw [except_ok_bind] at h
    exact ⟨z, rfl, h⟩

/-- From the positional load relation of the ICO-assembly loop and the
exact dimensions of the files on disk: the members' widths and heights
are, in order, exactly the requested sizes, and every member is RGBA. -/
theorem icoImgs_spec {fs : FS} {l : List Nat} {imgs : List Img}
    (hrel : List.Forall₂ (fun s img => ∃ img0,
      getFile fs (iconWinPng s) = some (FileData.png img0) ∧
      img = Img.convertRGBA img0) l imgs)
    (hex : ∀ s ∈ l, ∃ img, getFile fs (iconWinPng s) = some (FileData.png img) ∧
      img.width = s ∧ img.height = s) :
    imgs.map Img.width = l ∧ imgs.map Img.height = l ∧
    ∀ i ∈ imgs, i.mode = "RGBA" := by
  induction hrel with
  | nil => simp
  | @cons s img l' imgs' hR hrest ih =>
    obtain ⟨img0, hg0, rfl⟩ := hR
    obtain ⟨img1, hg1, hw, hh⟩ := hex s (List.mem_cons_self s l')
    rw [hg0] at hg1
    have himg : img0 = img1 := by simpa using hg1
    subst himg
    obtain ⟨ihw, ihh, ihm⟩ := ih (fun t ht => hex t (List.mem_cons_of_mem s ht))
    refine ⟨?_, ?_, ?_⟩
    · simp [Img.convertRGBA, hw, ihw]
    · simp [Img.convertRGBA, hh, ihh]
    · intro i hi
      rcases List.mem_cons.mp hi with hi | hi
      · subst hi; rfl
      · exact ihm i hi

/-- `sorted(set(l))` leaves a strictly ascending list unchanged. -/
theorem sortedSet_of_chain {l : List (Nat × Nat)}
    (h : List.Chain' pairLt l) : sortedSet l = l := by
  induction l with
  | nil => rfl
  | cons x l ih =>
    have hstep : sortedSet (x :: l) = insSorted x (sortedSet l) := rfl
    rw [hstep, ih h.tail]
    cases l with
    | nil => rfl
    | cons y ys =>
      rw [List.chain'_cons] at h
      rw [insSorted, if_pos h.1]

/-- Pillow's save through the two scripts' call pattern: the requested
sizes are the frames' own sizes — strictly ascending squares led by the
base frame's size — so the base-size filter keeps only the first of
them, which the base itself fills: the written ICO holds exactly the
base frame. -/
theorem icoSaveFrames_base_only (base : Img) (append : List Img)
    (s0 : Nat) (rest : List Nat)
    (hw : base.width = s0) (hh : base.height = s0) (h256 : s0 ≤ 256)
    (hasc : List.Chain' (fun a b : Nat => a < b) (s0 :: rest)) :
    icoSaveFrames base append ((s0 :: rest).map (fun s => (s, s))) = [base] := by
  have hchain : List.Chain' pairLt ((s0 :: rest).map (fun s => (s, s))) := by
    rw [List.chain'_map]
    exact hasc.imp (fun a b hab => Or.inl hab)
  have hgt : ∀ t ∈ rest, s0 < t := by
    have hpw := List.chain'_iff_pairwise.mp hasc
    exact fun t ht => List.rel_of_pairwise_cons hpw ht
  unfold icoSaveFrames
  rw [sortedSet_of_chain hchain]
  have hrest : ∀ (m : List Nat), (∀ t ∈ m, s0 < t) →
      (m.map (fun s => (s, s))).filter (fun sz =>
        decide (sz.1 ≤ base.width ∧ sz.2 ≤ base.height ∧
          sz.1 ≤ 256 ∧ sz.2 ≤ 256)) = [] := by
    intro m
    induction m with
    | nil => intro _; rfl
    | cons t ts ih =>
      intro hm
      have hnot : ¬ t ≤ base.width := by
        rw [hw]
        exact Nat.not_le_of_lt (hm t (List.mem_cons_self t ts))
      rw [List.map_cons, List.filter_cons, if_neg (by simp [hnot])]
      exact ih (fun u hu => hm u (List.mem_cons_of_mem t hu))
  rw [List.map_cons, List.filter_cons, if_pos (by simp [hw, hh, h256]),
    hrest rest hgt]
  simp only [List.map_cons, List.map_nil]
  rw [List.find?_cons_of_pos _ (by simp [Img.size, hw, hh])]

/-! ### Concrete facts about the hardcoded names and size tables -/

theorem tempNames_distinct :
    ∀ s ∈ sizes, iconWinPng s ≠ "tray-icon-win.png" ∧ iconWinPng s ≠ "icon-win.ico" ∧
      iconWinPng s ∉ store_sizes.map Prod.fst ∧
      iconWinPng s ∉ general_icons.map Prod.fst := by decide

theorem tempNames_nodup : (sizes.map iconWinPng).Nodup := by decide

theorem storeNames_nodup : (store_sizes.map Prod.fst).Nodup := by decide

theorem generalNames_nodup : (general_icons.map Prod.fst).Nodup := by decide

theorem icoName_fresh : "icon-win.ico" ∉ store_sizes.map Prod.fst ∧
    "icon-win.ico" ∉ general_icons.map Prod.fst := by decide

theorem trayName_fresh : "tray-icon-win.png" ≠ "icon-win.ico" ∧
    "tray-icon-win.png" ∉ store_sizes.map Prod.fst ∧
    "tray-icon-win.png" ∉ general_icons.map Prod.fst := by decide

theorem storeNames_not_general :
    ∀ fn ∈ store_sizes.map Prod.fst, fn ∉ general_icons.map Prod.fst := by decide

theorem ico_sizes_subset_sizes : ∀ s ∈ ico_sizes, s ∈ sizes := by decide

/-! ### Inversion of `genPhase1` and `gen_main` -/

section MainLemmas

variable {svg2rlg : FileData → Option Drawing}
variable {renderPM : Drawing → Rat → Img}

/-- Inversion of a successful run of everything before the cleanup loop:
each temporary PNG is on disk at exactly its size; `icon-win.ico` holds
exactly one frame — Pillow's saver drops every requested size larger
than the 16 x 16 base — and that frame is the RGBA 16 x 16 base; the
tray icon is 32 x 32, every Store and general icon is on disk at exactly
its table size, and the events appended are writes only and include the
write of `icon-win.ico`. -/
theorem genPhase1_ok_inv {st st' : St}
    (h : genPhase1 svg2rlg renderPM st = Except.ok st') :
    (∀ s ∈ sizes, ∃ img, getFile st'.fs (iconWinPng s) = some (FileData.png img) ∧
      img.width = s ∧ img.height = s) ∧
    (∃ img, getFile st'.fs "icon-win.ico" = some (FileData.ico [img]) ∧
      img.width = 16 ∧ img.height = 16 ∧ img.mode = "RGBA") ∧
    (∃ img, getFile st'.fs "tray-icon-win.png" = some (FileData.png img) ∧
      img.width = 32 ∧ img.height = 32) ∧
    (∀ fn sz, (fn, sz) ∈ store_sizes ++ general_icons →
      ∃ img, getFile st'.fs fn = some (FileData.png img) ∧
      img.width = sz ∧ img.height = sz) ∧
    (∃ ev, st'.events = st.events ++ ev ∧ Event.write "icon-win.ico" ∈ ev ∧
      ∀ e ∈ ev, ∃ f, e = Event.write f) := by
  unfold genPhase1 at h
  obtain ⟨st1, h1, h⟩ := except_bind_ok h
  try simp only [] at h
  obtain ⟨st2, h2, h⟩ := except_bind_ok h
  try simp only [] at h
  obtain ⟨imgs, h3, h⟩ := except_bind_ok h
  cases imgs with
  | nil => exact absurd h (by simp)
  | cons base others =>
  try simp only [] at h
  obtain ⟨st5, h5, h6⟩ := except_bind_ok h
  obtain ⟨frameS, hexactS, ⟨evS, hevS, hevSw⟩⟩ := genSizesLoop_ok_inv h1
  obtain ⟨frameT, ⟨trayImg, htray, htw, hth⟩, _, ⟨evT, hevT, hevTw⟩⟩ := svg_to_png_ok_inv h2
  obtain ⟨frame5, hexact5, ⟨ev5, hev5, hev5w⟩⟩ := genTableLoop_ok_inv h5
  obtain ⟨frame6, hexact6, ⟨ev6, hev6, hev6w⟩⟩ := genTableLoop_ok_inv h6
  have exactS := hexactS tempNames_nodup
  -- the temporary PNGs, with their exact sizes, as seen by the ICO load
  have tempsSt3 : ∀ s ∈ sizes, ∃ img,
      getFile (St.print st2 "Generated tray-icon-win.png").fs (iconWinPng s) =
        some (FileData.png img) ∧ img.width = s ∧ img.height = s := by
    intro s hs
    obtain ⟨img, hg, hw, hh⟩ := exactS s hs
    refine ⟨img, ?_, hw, hh⟩
    rw [St.print_fs, frameT _ (tempNames_distinct s hs).1]
    exact hg
  have hico := icoImgs_spec (genIcoLoad_ok_inv h3)
    (fun s hs => tempsSt3 s (ico_sizes_subset_sizes s hs))
  -- a name untouched by both table loops keeps its `st4` contents
  have frame56 : ∀ q, q ∉ store_sizes.map Prod.fst → q ∉ general_icons.map Prod.fst →
      getFile st'.fs q =
        getFile (setFile (St.print st2 "Generated tray-icon-win.png").fs
          "icon-win.ico" (FileData.ico
            (icoSaveFrames base others (ico_sizes.map (fun s => (s, s)))))) q := by
    intro q hqs hqg
    rw [frame6 q hqg, frame5 q hqs]
    rfl
  refine ⟨?_, ?_, ?_, ?_, ?_⟩
  · -- temporary PNGs survive to the end of phase 1
    intro s hs
    obtain ⟨img, hg, hw, hh⟩ := tempsSt3 s hs
    refine ⟨img, ?_, hw, hh⟩
    rw [frame56 _ (tempNames_distinct s hs).2.2.1 (tempNames_distinct s hs).2.2.2,
      getFile_setFile_ne _ _ _ _ (tempNames_distinct s hs).2.1]
    exact hg
  · -- the written ICO: only the base frame survives Pillow's size filter
    have hbw : base.width = 16 := by
      have h' := hico.1
      rw [List.map_cons, show ico_sizes = 16 :: [24, 32, 48, 64, 256] from rfl] at h'
      injection h' with hb _
    have hbh : base.height = 16 := by
      have h' := hico.2.1
      rw [List.map_cons, show ico_sizes = 16 :: [24, 32, 48, 64, 256] from rfl] at h'
      injection h' with hb _
    have hbm : base.mode = "RGBA" := hico.2.2 base (List.mem_cons_self base others)
    have hbo : icoSaveFrames base others (ico_sizes.map (fun s => (s, s))) = [base] :=
      icoSaveFrames_base_only base others 16 [24, 32, 48, 64, 256]
        hbw hbh (by decide) (List.chain'_iff_pairwise.mpr (by decide))
    refine ⟨base, ?_, hbw, hbh, hbm⟩
    rw [frame56 _ icoName_fresh.1 icoName_fresh.2, getFile_setFile_self, hbo]
  · -- the tray icon
    refine ⟨trayImg, ?_, htw, hth⟩
    rw [frame56 _ trayName_fresh.2.1 trayName_fresh.2.2,
      getFile_setFile_ne _ _ _ _ trayName_fresh.1]
    exact htray
  · -- the Store and general icons
    intro fn sz hmem
    rcases List.mem_append.mp hmem with hmem | hmem
    · obtain ⟨img, hg, hw, hh⟩ := hexact5 storeNames_nodup fn sz hmem
      refine ⟨img, ?_, hw, hh⟩
      rw [frame6 fn (storeNames_not_general fn (List.mem_map_of_mem Prod.fst hmem))]
      exact hg
    · exact hexact6 generalNames_nodup fn sz hmem
  · -- the event trace of phase 1
    refine ⟨evS ++ (evT ++ ([Event.write "icon-win.ico"] ++ (ev5 ++ ev6))), ?_, ?_, ?_⟩
    · rw [hev6, hev5]
      simp [hevT, hevS]
    · simp
    · intro e he
      simp only [List.mem_append] at he
      rcases he with he | he | he | he | he
      · exact hevSw e he
      · exact hevTw e he
      · exact ⟨"icon-win.ico", by simpa using he⟩
      · exact hev5w e he
      · exact hev6w e he

/-- Inversion of a successful `gen_main` run: phase 1 succeeded and the
final state is its state after the cleanup loop plus the final line. -/
theorem gen_main_ok_inv {st st' : St}
    (h : gen_main svg2rlg renderPM st = Except.ok st') :
    ∃ stP, genPhase1 svg2rlg renderPM st = Except.ok stP ∧
      st' = (genCleanupLoop stP temp_files).print
        "Done! Windows icons generated successfully." := by
  unfold gen_main at h
  obtain ⟨stP, hP, h⟩ := except_bind_ok h
  refine ⟨stP, hP, ?_⟩
  simpa using h.symm

end MainLemmas

/-! ### Lemmas about `create_ico` -/

/-- Forward run of the `create_ico` load loop when every existing input
is a PNG: it succeeds, the loaded images' sizes are, in order, exactly
the sizes of the existing inputs, all loaded images are RGBA, and a
warning line is printed for every missing input. -/
theorem createIcoLoad_spec {fs : FS} {l : List Nat}
    (hpng : ∀ s ∈ l, ∀ fd, getFile fs (iconWinPng s) = some fd →
      ∃ img, fd = FileData.png img) :
    ∃ imgs out, createIcoLoad fs l = Except.ok (imgs, out) ∧
      imgs.map Img.size =
        (l.filter (fun s => (getFile fs (iconWinPng s)).isSome)).map (fun s => (s, s)) ∧
      (∀ i ∈ imgs, i.mode = "RGBA") ∧
      (∀ s ∈ l, getFile fs (iconWinPng s) = none →
        ("Warning: " ++ iconWinPng s ++ " not found") ∈ out) := by
  induction l with
  | nil => exact ⟨[], [], rfl, by simp, by simp, by simp⟩
  | cons s rest ih =>
    obtain ⟨imgs, out, hok, hmap, hmode, hwarn⟩ :=
      ih (fun t ht => hpng t (List.mem_cons_of_mem s ht))
    cases hgf : getFile fs (iconWinPng s) with
    | some fd =>
      obtain ⟨img0, rfl⟩ := hpng s (List.mem_cons_self s rest) fd hgf
      refine ⟨(if (Img.convertRGBA img0).size = (s, s) then Img.convertRGBA img0
          else (Img.convertRGBA img0).resize s s) :: imgs,
        ("Loaded " ++ iconWinPng s ++ ": " ++
          toString (if (Img.convertRGBA img0).size = (s, s) then Img.convertRGBA img0
            else (Img.convertRGBA img0).resize s s).size) :: out, ?_, ?_, ?_, ?_⟩
      · rw [createIcoLoad, hgf]
        simp only [Option.isSome_some, if_true]
        rw [hok, except_ok_bind]
      · have hsz : (if (Img.convertRGBA img0).size = (s, s) then Img.convertRGBA img0
            else (Img.convertRGBA img0).resize s s).size = (s, s) := by
          split
          · assumption
          · simp [Img.resize, Img.size]
        simp [hsz, List.filter_cons, hgf, hmap]
      · intro i hi
        rcases List.mem_cons.mp hi with hi | hi
        · subst hi
          split
          · rfl
          · rfl
        · exact hmode i hi
      · intro t ht hnone
        rcases List.mem_cons.mp ht with ht | ht
        · subst ht
          rw [hgf] at hnone
          exact absurd hnone (by simp)
        · exact List.mem_cons_of_mem _ (hwarn t ht hnone)
    | none =>
      refine ⟨imgs, ("Warning: " ++ iconWinPng s ++ " not found") :: out, ?_, ?_, hmode, ?_⟩
      · rw [createIcoLoad, hgf]
        simp only [Option.isSome_none, Bool.false_eq_true, if_false]
        rw [hok, except_ok_bind]
      · simp [List.filter_cons, hgf, hmap]
      · intro t ht hnone
        rcases List.mem_cons.mp ht with ht | ht
        · subst ht
          exact List.mem_cons_self _ _
        · exact List.mem_cons_of_mem _ (hwarn t ht hnone)

/-- Inversion of a successful `create_ico` load loop: the loaded images'
sizes are, in order, exactly the sizes of the existing inputs, all are
RGBA, and a warning was printed for every missing input. -/
theorem createIcoLoad_ok_inv {fs : FS} {l : List Nat} {imgs : List Img}
    {out : List String} (h : createIcoLoad fs l = Except.ok (imgs, out)) :
    imgs.map Img.size =
      (l.filter (fun s => (getFile fs (iconWinPng s)).isSome)).map (fun s => (s, s)) ∧
    (∀ i ∈ imgs, i.mode = "RGBA") ∧
    (∀ s ∈ l, getFile fs (iconWinPng s) = none →
      ("Warning: " ++ iconWinPng s ++ " not found") ∈ out) := by
  induction l generalizing imgs out with
  | nil =>
    rw [createIcoLoad] at h
    cases h
    exact ⟨by simp, by simp, by simp⟩
  | cons s rest ih =>
    rw [createIcoLoad] at h
    cases hgf : getFile fs (iconWinPng s) with
    | some fd =>
      rw [hgf] at h
      simp only [Option.isSome_some, if_true] at h
      cases fd with
      | bytes b => exact absurd h (by simp)
      | ico is => exact absurd h (by simp)
      | png img0 =>
        obtain ⟨⟨imgs', out'⟩, hrest, h⟩ := except_bind_ok h
        simp only [] at h
        cases h
        obtain ⟨hmap, hmode, hwarn⟩ := ih hrest
        refine ⟨?_, ?_, ?_⟩
        · have hsz : (if (Img.convertRGBA img0).size = (s, s) then Img.convertRGBA img0
              else (Img.convertRGBA img0).resize s s).size = (s, s) := by
            split
            · assumption
            · simp [Img.resize, Img.size]
          simp [hsz, List.filter_cons, hgf, hmap]
        · intro i hi
          rcases List.mem_cons.mp hi with hi | hi
          · subst hi
            split
            · rfl
            · rfl
          · exact hmode i hi
        · intro t ht hnone
          rcases List.mem_cons.mp ht with ht | ht
          · subst ht
            rw [hgf] at hnone
            exact absurd hnone (by simp)
          · exact List.mem_cons_of_mem _ (hwarn t ht hnone)
    | none =>
      rw [hgf] at h
      simp only [Option.isSome_none, Bool.false_eq_true, if_false] at h
      obtain ⟨⟨imgs', out'⟩, hrest, h⟩ := except_bind_ok h
      simp only [] at h
      cases h
      obtain ⟨hmap, hmode, hwarn⟩ := ih hrest
      refine ⟨?_, hmode, ?_⟩
      · simp [List.filter_cons, hgf, hmap]
      · intro t ht hnone
        rcases List.mem_cons.mp ht with ht | ht
        · subst ht
          exact List.mem_cons_self _ _
        · exact List.mem_cons_of_mem _ (hwarn t ht hnone)

/-- `create_ico` when the load loop collected nothing: nothing is
written and `No images found!` is printed. -/
theorem create_ico_eq_nil {st : St} {out : List String}
    (h : createIcoLoad st.fs ico_sizes = Except.ok ([], out)) :
    create_ico st =
      Except.ok (({ st with out := st.out ++ out }).print "No images found!") := by
  unfold create_ico
  rw [h, except_ok_bind]

/-- `create_ico` when the load loop collected at least one image: the
collected images are handed to Pillow's ICO save (the first as base, the
rest appended, the sizes being the images' own sizes), and the byte size
and the image-count field read back from the written file are printed. -/
theorem create_ico_eq_cons {st : St} {base : Img} {others : List Img}
    {out : List String}
    (h : createIcoLoad st.fs ico_sizes = Except.ok (base :: others, out)) :
    create_ico st = Except.ok
      (((({ st with out := st.out ++ out }).writeF "icon-win.ico"
          (FileData.ico (icoSaveFrames base others ((base :: others).map Img.size)))).print
        ("Generated icon-win.ico: " ++ toString (fileSize (FileData.ico
          (icoSaveFrames base others ((base :: others).map Img.size)))) ++ " bytes")).print
        ("ICO contains " ++ toString ((icoSaveFrames base others
          ((base :: others).map Img.size)).length % 2 ^ 16) ++ " images")) := by
  unfold create_ico
  rw [h, except_ok_bind]
  rfl

/-- After a nonempty `create_ico` load, Pillow's save keeps only the
base frame: the loaded sizes are strictly ascending squares led by the
base's own size, so the saver's base-size filter drops all the others
and the written frame list is `[base]`. -/
theorem create_ico_frames_base_only {fs : FS} {base : Img} {others : List Img}
    {out : List String}
    (h : createIcoLoad fs ico_sizes = Except.ok (base :: others, out)) :
    icoSaveFrames base others ((base :: others).map Img.size) = [base] := by
  obtain ⟨hmap, _, _⟩ := createIcoLoad_ok_inv h
  cases hps : ico_sizes.filter (fun s => (getFile fs (iconWinPng s)).isSome) with
  | nil =>
    rw [hps] at hmap
    simp at hmap
  | cons s0 restP =>
    rw [hps] at hmap
    have hbase : Img.size base = (s0, s0) := by
      have h' := hmap
      rw [List.map_cons, List.map_cons] at h'
      injection h' with hb _
    have hbw : base.width = s0 := congrArg Prod.fst hbase
    have hbh : base.height = s0 := congrArg Prod.snd hbase
    have h256 : s0 ≤ 256 := by
      have hmem : s0 ∈ ico_sizes :=
        List.mem_of_mem_filter (hps ▸ List.mem_cons_self s0 restP)
      have hall : ∀ s ∈ ico_sizes, s ≤ 256 := by decide
      exact hall s0 hmem
    have hasc : List.Chain' (fun a b : Nat => a < b) (s0 :: restP) := by
      rw [← hps]
      exact List.chain'_iff_pairwise.mpr (List.Pairwise.filter _ (by decide))
    rw [hmap]
    exact icoSaveFrames_base_only base others s0 restP hbw hbh h256 hasc

/-! ### Observables and test instantiations of the external renderer -/

/-- A filename encodes a pixel size when the decimal rendering of the
size occurs in the filename. -/
def nameEncodesSize (name : String) (n : Nat) : Prop :=
  (toString n).toList <:+: name.toList

/-- The world a script runs in: the filesystem it reads, plus the
process environment and command line, which neither script consults. -/
structure World where
  fs : FS
  env : List (String × String)
  argv : List String

/-- A whole run of `gen_win_icons.main` from a world: fresh console and
event trace, filesystem taken from the world. -/
def gen_main_world (svg2rlg : FileData → Option Drawing)
    (renderPM : Drawing → Rat → Img) (w : World) : Except String St :=
  gen_main svg2rlg renderPM { fs := w.fs, out := [], events := [] }

/-- A whole run of the `create_ico` module body from a world. -/
def create_ico_world (w : World) : Except String St :=
  create_ico { fs := w.fs, out := [], events := [] }

/-- The contents of a file after a `gen_win_icons.main` run (`none` when
the run fails or the file is absent). -/
def fileAfterGen (svg2rlg : FileData → Option Drawing)
    (renderPM : Drawing → Rat → Img) (st0 : St) (name : String) : Option FileData :=
  match gen_main svg2rlg renderPM st0 with
  | Except.ok st => getFile st.fs name
  | Except.error _ => none

/-- The image-count field of `icon-win.ico` after a run (`none` when the
run fails or no ICO file exists). -/
def icoCountOfRun (r : Except String St) : Option Nat :=
  match r with
  | Except.ok st =>
    match getFile st.fs "icon-win.ico" with
    | some fd => icoCountField fd
    | none => none
  | Except.error _ => none

/-- The embedded frame list of `icon-win.ico` after a run (`none` when
the run fails or no ICO file exists). -/
def icoFramesOfRun (r : Except String St) : Option (List Img) :=
  match r with
  | Except.ok st =>
    match getFile st.fs "icon-win.ico" with
    | some (FileData.ico imgs) => some imgs
    | some _ => none
    | none => none
  | Except.error _ => none

/-- Test instantiation of `svg2rlg`: every file parses to a fixed
100 x 100 drawing with identity transform. -/
def constParse : FileData → Option Drawing :=
  fun _ => some { width := 100, height := 100, scaleX := 1, scaleY := 1, content := [] }

/-- Test instantiation of `renderPM`: renders a drawing at exactly its
nominal dimensions. -/
def exactRender : Drawing → Rat → Img :=
  fun d _ => { width := d.width.num.toNat, height := d.height.num.toNat,
               mode := "RGB", data := [] }

/-- Test instantiation of `renderPM` that is one pixel too wide, so the
resize path of `svg_to_png` is exercised. -/
def offRender : Drawing → Rat → Img :=
  fun d _ => { width := d.width.num.toNat + 1, height := d.height.num.toNat,
               mode := "RGB", data := [] }

/-- A filesystem holding the two input SVGs of `gen_win_icons`. -/
def svgFs : FS :=
  [("icon-win.svg", FileData.bytes [0]), ("tray-icon-win.svg", FileData.bytes [1])]

instance (name : String) (n : Nat) : Decidable (nameEncodesSize name n) :=
  List.decidableInfix _ _

/-- The load loop of `create_ico` when no input exists: nothing is
loaded and one warning per size is printed. -/
theorem createIcoLoad_all_missing {fs : FS} {l : List Nat}
    (h : ∀ s ∈ l, getFile fs (iconWinPng s) = none) :
    createIcoLoad fs l =
      Except.ok ([], l.map (fun s => "Warning: " ++ iconWinPng s ++ " not found")) := by
  induction l with
  | nil => rfl
  | cons s rest ih =>
    rw [createIcoLoad, h s (List.mem_cons_self s rest)]
    simp only [Option.isSome_none, Bool.false_eq_true, if_false]
    rw [ih (fun t ht => h t (List.mem_cons_of_mem s ht)), except_ok_bind]
    rfl

/-! ### The claims -/

/-- C7: both scripts are deterministic functions of the input files:
they consult no environment or command line, so two runs over identical
file contents produce identical results (output files, console output,
event trace), whatever the rest of the world looks like. -/
theorem C7_runs_deterministic (svg2rlg : FileData → Option Drawing)
    (renderPM : Drawing → Rat → Img) (w1 w2 : World) (hfs : w1.fs = w2.fs) :
    gen_main_world svg2rlg renderPM w1 = gen_main_world svg2rlg renderPM w2 ∧
    create_ico_world w1 = create_ico_world w2 := by
  unfold gen_main_world create_ico_world
  rw [hfs]
  exact ⟨rfl, rfl⟩

theorem C7_witness :
    (World.fs ⟨svgFs, [("PATH", "/usr/bin")], ["gen_win_icons.py"]⟩ =
      World.fs ⟨svgFs, [], []⟩) ∧
    (gen_main_world constParse exactRender
        ⟨svgFs, [("PATH", "/usr/bin")], ["gen_win_icons.py"]⟩ =
      gen_main_world constParse exactRender ⟨svgFs, [], []⟩ ∧
    create_ico_world ⟨svgFs, [("PATH", "/usr/bin")], ["gen_win_icons.py"]⟩ =
      create_ico_world ⟨svgFs, [], []⟩) :=
  ⟨rfl, C7_runs_deterministic constParse exactRender
    ⟨svgFs, [("PATH", "/usr/bin")], ["gen_win_icons.py"]⟩ ⟨svgFs, [], []⟩ rfl⟩

/-- C8: when none of the six input files exists, `create_ico` writes
nothing at all (the filesystem is unchanged, so `icon-win.ico` is
neither created nor modified), prints a warning per size followed by
`No images found!`, and terminates without error. -/
theorem C8_no_inputs_no_write (st : St)
    (hnone : ∀ s ∈ ico_sizes, getFile st.fs (iconWinPng s) = none) :
    ∃ st', create_ico st = Except.ok st' ∧ st'.fs = st.fs ∧
      st'.out = st.out ++
        ico_sizes.map (fun s => "Warning: " ++ iconWinPng s ++ " not found") ++
        ["No images found!"] := by
  have hload := createIcoLoad_all_missing hnone
  refine ⟨_, create_ico_eq_nil hload, rfl, ?_⟩
  simp [St.print]

theorem C8_witness :
    (∀ s ∈ ico_sizes, getFile ([] : FS) (iconWinPng s) = none) ∧
    ∃ st', create_ico ⟨[], [], []⟩ = Except.ok st' ∧ st'.fs = [] ∧
      st'.out = [] ++
        ico_sizes.map (fun s => "Warning: " ++ iconWinPng s ++ " not found") ++
        ["No images found!"] :=
  ⟨by decide, C8_no_inputs_no_write ⟨[], [], []⟩ (by decide)⟩

/-- C9 counterexample: with `icon-win-16.png` and `icon-win-24.png`
both present, `create_ico` loads two frames but the written ICO embeds
only the 16 x 16 base — the existing 24 x 24 input is not among the
embedded images, so the embedded images are not the existing files of
`[16, 24, 32, 48, 64, 256]` in ascending order. -/
theorem C9_counterexample :
    (getFile ([("icon-win-16.png", FileData.png ⟨16, 16, "RGBA", []⟩),
        ("icon-win-24.png", FileData.png ⟨24, 24, "RGBA", []⟩)] : FS)
      (iconWinPng 24)).isSome = true ∧
    icoFramesOfRun (create_ico
      ⟨[("icon-win-16.png", FileData.png ⟨16, 16, "RGBA", []⟩),
        ("icon-win-24.png", FileData.png ⟨24, 24, "RGBA", []⟩)], [], []⟩) =
      some [⟨16, 16, "RGBA", []⟩] ∧
    ¬ (24 ∈ [(⟨16, 16, "RGBA", []⟩ : Img)].map Img.width) :=
  ⟨rfl, rfl, by decide⟩

/-- C9 (amended): every image `create_ico` loads and passes to the ICO
save call is RGBA with dimensions exactly its filename's size; the
loaded images appear in ascending size order (the order of the existing
files in `[16, 24, 32, 48, 64, 256]`) with the smallest existing size
as the base of the save; the written ICO, however, embeds only that
base frame, because Pillow ignores every requested size larger than the
base image. -/
theorem C9_amended_loaded_frames (st : St) (imgs : List Img) (out : List String)
    (h : createIcoLoad st.fs ico_sizes = Except.ok (imgs, out)) :
    (∀ i ∈ imgs, i.mode = "RGBA") ∧
    imgs.map Img.size = (ico_sizes.filter
      (fun s => (getFile st.fs (iconWinPng s)).isSome)).map (fun s => (s, s)) ∧
    List.Sorted (fun a b => a < b) (imgs.map Img.width) ∧
    (∀ base others, imgs = base :: others →
      ∃ st', create_ico st = Except.ok st' ∧
        getFile st'.fs "icon-win.ico" = some (FileData.ico [base]) ∧
        ∀ i ∈ imgs, base.width ≤ i.width) := by
  obtain ⟨hmap, hmode, _⟩ := createIcoLoad_ok_inv h
  have hw : imgs.map Img.width =
      ico_sizes.filter (fun s => (getFile st.fs (iconWinPng s)).isSome) := by
    have hfst := congrArg (List.map Prod.fst) hmap
    rw [List.map_map, List.map_map] at hfst
    have e1 : Prod.fst ∘ Img.size = Img.width := funext (fun i => rfl)
    have e2 : (Prod.fst ∘ fun s : Nat => (s, s)) = id := funext (fun s => rfl)
    rw [e1, e2, List.map_id] at hfst
    exact hfst
  have hsorted : List.Sorted (fun a b => a < b) (imgs.map Img.width) := by
    rw [hw]
    exact List.Pairwise.filter _ (by decide)
  refine ⟨hmode, hmap, hsorted, ?_⟩
  intro base others heq
  refine ⟨_, create_ico_eq_cons (heq ▸ h), ?_, ?_⟩
  · have hbo := create_ico_frames_base_only (heq ▸ h)
    simp only [St.print_fs, St.writeF_fs]
    rw [getFile_setFile_self, hbo]
  · have hs : List.Sorted (fun a b => a < b) (base.width :: others.map Img.width) := by
      have := hsorted
      rw [heq] at this
      simpa using this
    obtain ⟨hlt, _⟩ := List.sorted_cons.mp hs
    intro i hi
    rw [heq] at hi
    rcases List.mem_cons.mp hi with hi | hi
    · subst hi
      exact Nat.le_refl _
    · exact Nat.le_of_lt (hlt i.width (List.mem_map_of_mem Img.width hi))

theorem C9_witness :
    (createIcoLoad ([("icon-win-32.png", FileData.png ⟨32, 32, "RGB", [7]⟩),
        ("icon-win-64.png", FileData.png ⟨64, 99, "RGBA", [8]⟩)] : FS) ico_sizes =
      Except.ok ([⟨32, 32, "RGBA", [7]⟩, ⟨64, 64, "RGBA", [8]⟩],
        ["Warning: icon-win-16.png not found",
         "Warning: icon-win-24.png not found",
         "Loaded icon-win-32.png: (32, 32)",
         "Warning: icon-win-48.png not found",
         "Loaded icon-win-64.png: (64, 64)",
         "Warning: icon-win-256.png not found"])) ∧
    ((∀ i ∈ [(⟨32, 32, "RGBA", [7]⟩ : Img), ⟨64, 64, "RGBA", [8]⟩], i.mode = "RGBA") ∧
      ([(⟨32, 32, "RGBA", [7]⟩ : Img), ⟨64, 64, "RGBA", [8]⟩].map Img.size =
        (ico_sizes.filter (fun s => (getFile
          ([("icon-win-32.png", FileData.png ⟨32, 32, "RGB", [7]⟩),
            ("icon-win-64.png", FileData.png ⟨64, 99, "RGBA", [8]⟩)] : FS)
          (iconWinPng s)).isSome)).map (fun s => (s, s))) ∧
      List.Sorted (fun a b => a < b)
        ([(⟨32, 32, "RGBA", [7]⟩ : Img), ⟨64, 64, "RGBA", [8]⟩].map Img.width) ∧
      (∀ base others,
        [(⟨32, 32, "RGBA", [7]⟩ : Img), ⟨64, 64, "RGBA", [8]⟩] = base :: others →
        ∃ st', create_ico ⟨[("icon-win-32.png", FileData.png ⟨32, 32, "RGB", [7]⟩),
            ("icon-win-64.png", FileData.png ⟨64, 99, "RGBA", [8]⟩)], [], []⟩ =
            Except.ok st' ∧
          getFile st'.fs "icon-win.ico" = some (FileData.ico [base]) ∧
          ∀ i ∈ [(⟨32, 32, "RGBA", [7]⟩ : Img), ⟨64, 64, "RGBA", [8]⟩],
            base.width ≤ i.width)) :=
  ⟨rfl, C9_amended_loaded_frames
    ⟨[("icon-win-32.png", FileData.png ⟨32, 32, "RGB", [7]⟩),
      ("icon-win-64.png", FileData.png ⟨64, 99, "RGBA", [8]⟩)], [], []⟩
    [⟨32, 32, "RGBA", [7]⟩, ⟨64, 64, "RGBA", [8]⟩]
    ["Warning: icon-win-16.png not found",
     "Warning: icon-win-24.png not found",
     "Loaded icon-win-32.png: (32, 32)",
     "Warning: icon-win-48.png not found",
     "Loaded icon-win-64.png: (64, 64)",
     "Warning: icon-win-256.png not found"] rfl⟩

/-- C1: every raster produced by either script has pixel dimensions
exactly `(size, size)` for the requested size: a successful `svg_to_png`
call leaves a PNG of exactly `(size, size)` at its output path (resizing
the render when needed), and the images `create_ico` loads for ICO
assembly are resized so that their sizes are, in order, exactly the
sizes of the existing `icon-win-{size}.png` inputs. -/
theorem C1_raster_dimensions
    (svg2rlg : FileData → Option Drawing) (renderPM : Drawing → Rat → Img)
    (st st' : St) (sp pp : String) (size : Nat)
    (fs : FS) (imgs : List Img) (out : List String)
    (h : svg_to_png svg2rlg renderPM st sp pp size = Except.ok st')
    (hload : createIcoLoad fs ico_sizes = Except.ok (imgs, out)) :
    (∃ img, getFile st'.fs pp = some (FileData.png img) ∧
      img.width = size ∧ img.height = size) ∧
    imgs.map Img.size = (ico_sizes.filter
      (fun s => (getFile fs (iconWinPng s)).isSome)).map (fun s => (s, s)) :=
  ⟨(svg_to_png_ok_inv h).2.1, (createIcoLoad_ok_inv hload).1⟩

theorem C1_witness :
    (svg_to_png constParse offRender ⟨svgFs, [], []⟩ "icon-win.svg" "out.png" 16 =
      Except.ok ⟨svgFs ++ [("out.png", FileData.png ⟨16, 16, "RGB", []⟩)], [],
        [Event.write "out.png", Event.write "out.png"]⟩) ∧
    (createIcoLoad ([("icon-win-16.png", FileData.png ⟨16, 16, "RGBA", []⟩)] : FS)
        ico_sizes = Except.ok ([⟨16, 16, "RGBA", []⟩],
          ["Loaded icon-win-16.png: (16, 16)",
           "Warning: icon-win-24.png not found",
           "Warning: icon-win-32.png not found",
           "Warning: icon-win-48.png not found",
           "Warning: icon-win-64.png not found",
           "Warning: icon-win-256.png not found"])) ∧
    ((∃ img, getFile (svgFs ++ [("out.png", FileData.png ⟨16, 16, "RGB", []⟩)])
        "out.png" = some (FileData.png img) ∧ img.width = 16 ∧ img.height = 16) ∧
      [(⟨16, 16, "RGBA", []⟩ : Img)].map Img.size = (ico_sizes.filter
        (fun s => (getFile ([("icon-win-16.png", FileData.png ⟨16, 16, "RGBA", []⟩)] : FS)
          (iconWinPng s)).isSome)).map (fun s => (s, s))) :=
  ⟨rfl, rfl, C1_raster_dimensions constParse offRender ⟨svgFs, [], []⟩
    ⟨svgFs ++ [("out.png", FileData.png ⟨16, 16, "RGB", []⟩)], [],
      [Event.write "out.png", Event.write "out.png"]⟩
    "icon-win.svg" "out.png" 16
    [("icon-win-16.png", FileData.png ⟨16, 16, "RGBA", []⟩)]
    [⟨16, 16, "RGBA", []⟩]
    ["Loaded icon-win-16.png: (16, 16)",
     "Warning: icon-win-24.png not found",
     "Warning: icon-win-32.png not found",
     "Warning: icon-win-48.png not found",
     "Warning: icon-win-64.png not found",
     "Warning: icon-win-256.png not found"] rfl rfl⟩

/-- C5: on a parseable SVG, `svg_to_png` succeeds; the drawing is scaled
by the single uniform factor `min(size/width, size/height)` applied to
both axes; the written file is the render of that scaled drawing,
resized to exactly `(size, size)` precisely when the renderer's output
differs from `(size, size)`; either way the final PNG is exactly
`(size, size)`. -/
theorem C5_uniform_scale_and_resize
    (svg2rlg : FileData → Option Drawing) (renderPM : Drawing → Rat → Img)
    (st : St) (sp pp : String) (size : Nat) (c : FileData) (d : Drawing)
    (h1 : getFile st.fs sp = some c) (h2 : svg2rlg c = some d) :
    ∃ st', svg_to_png svg2rlg renderPM st sp pp size = Except.ok st' ∧
      (scaledDrawing d size).scaleX = d.scaleX * uscale d size ∧
      (scaledDrawing d size).scaleY = d.scaleY * uscale d size ∧
      uscale d size = min ((size : Rat) / d.width) ((size : Rat) / d.height) ∧
      getFile st'.fs pp = some (FileData.png
        (if (renderPM (scaledDrawing d size) (renderDpi d size)).size = (size, size)
         then renderPM (scaledDrawing d size) (renderDpi d size)
         else (renderPM (scaledDrawing d size) (renderDpi d size)).resize size size)) ∧
      (∃ img, getFile st'.fs pp = some (FileData.png img) ∧
        img.width = size ∧ img.height = size) := by
  by_cases hc : (renderPM (scaledDrawing d size) (renderDpi d size)).size = (size, size)
  · refine ⟨st.writeF pp (FileData.png (renderPM (scaledDrawing d size) (renderDpi d size))),
      ?_, rfl, rfl, rfl, ?_, ?_⟩
    · rw [svg_to_png_eq_of h1 h2, if_pos hc]
    · rw [if_pos hc]
      simp [St.writeF, getFile_setFile_self]
    · refine ⟨renderPM (scaledDrawing d size) (renderDpi d size), ?_, ?_, ?_⟩
      · simp [St.writeF, getFile_setFile_self]
      · exact congrArg Prod.fst hc
      · exact congrArg Prod.snd hc
  · refine ⟨(st.writeF pp (FileData.png (renderPM (scaledDrawing d size)
        (renderDpi d size)))).writeF pp
      (FileData.png ((renderPM (scaledDrawing d size) (renderDpi d size)).resize size size)),
      ?_, rfl, rfl, rfl, ?_, ?_⟩
    · rw [svg_to_png_eq_of h1 h2, if_neg hc]
    · rw [if_neg hc]
      simp [St.writeF, getFile_setFile_self]
    · exact ⟨(renderPM (scaledDrawing d size) (renderDpi d size)).resize size size,
        by simp [St.writeF, getFile_setFile_self], rfl, rfl⟩

theorem C5_witness :
    (getFile (⟨svgFs, [], []⟩ : St).fs "icon-win.svg" = some (FileData.bytes [0])) ∧
    (constParse (FileData.bytes [0]) =
      some ⟨100, 100, 1, 1, []⟩) ∧
    ∃ st', svg_to_png constParse exactRender ⟨svgFs, [], []⟩ "icon-win.svg"
        "out.png" 16 = Except.ok st' ∧
      (scaledDrawing ⟨100, 100, 1, 1, []⟩ 16).scaleX =
        (⟨100, 100, 1, 1, []⟩ : Drawing).scaleX * uscale ⟨100, 100, 1, 1, []⟩ 16 ∧
      (scaledDrawing ⟨100, 100, 1, 1, []⟩ 16).scaleY =
        (⟨100, 100, 1, 1, []⟩ : Drawing).scaleY * uscale ⟨100, 100, 1, 1, []⟩ 16 ∧
      uscale ⟨100, 100, 1, 1, []⟩ 16 =
        min ((16 : Rat) / (100 : Rat)) ((16 : Rat) / (100 : Rat)) ∧
      getFile st'.fs "out.png" = some (FileData.png
        (if (exactRender (scaledDrawing ⟨100, 100, 1, 1, []⟩ 16)
              (renderDpi ⟨100, 100, 1, 1, []⟩ 16)).size = (16, 16)
         then exactRender (scaledDrawing ⟨100, 100, 1, 1, []⟩ 16)
           (renderDpi ⟨100, 100, 1, 1, []⟩ 16)
         else (exactRender (scaledDrawing ⟨100, 100, 1, 1, []⟩ 16)
           (renderDpi ⟨100, 100, 1, 1, []⟩ 16)).resize 16 16)) ∧
      (∃ img, getFile st'.fs "out.png" = some (FileData.png img) ∧
        img.width = 16 ∧ img.height = 16) :=
  ⟨rfl, rfl, C5_uniform_scale_and_resize constParse exactRender ⟨svgFs, [], []⟩
    "icon-win.svg" "out.png" 16 (FileData.bytes [0]) ⟨100, 100, 1, 1, []⟩ rfl rfl⟩

/-- C4: on a missing input file, `create_ico` prints a warning for that
file and skips it, continuing with the remaining sizes (the collected
images are still exactly the existing ones) and raising no error; while
`gen_win_icons.main` propagates the failure of opening the missing SVG
as an unhandled error. -/
theorem C4_missing_input_behaviour
    (svg2rlg : FileData → Option Drawing) (renderPM : Drawing → Rat → Img)
    (stc stg : St) (s0 : Nat) (hs0 : s0 ∈ ico_sizes)
    (hmiss : getFile stc.fs (iconWinPng s0) = none)
    (hpng : ∀ s ∈ ico_sizes, ∀ fd, getFile stc.fs (iconWinPng s) = some fd →
      ∃ img, fd = FileData.png img)
    (hsvg : getFile stg.fs "icon-win.svg" = none) :
    (∃ st' imgs out, create_ico stc = Except.ok st' ∧
      ("Warning: " ++ iconWinPng s0 ++ " not found") ∈ st'.out ∧
      createIcoLoad stc.fs ico_sizes = Except.ok (imgs, out) ∧
      imgs.map Img.size = (ico_sizes.filter
        (fun s => (getFile stc.fs (iconWinPng s)).isSome)).map (fun s => (s, s))) ∧
    gen_main svg2rlg renderPM stg =
      Except.error ("FileNotFoundError: " ++ "icon-win.svg") := by
  constructor
  · obtain ⟨imgs, out, hld, hmap, hmode, hwarn⟩ :=
      createIcoLoad_spec hpng
    have hw : ("Warning: " ++ iconWinPng s0 ++ " not found") ∈ out :=
      hwarn s0 hs0 hmiss
    cases imgs with
    | nil =>
      refine ⟨_, [], out, create_ico_eq_nil hld, ?_, hld, hmap⟩
      simp only [St.print_out]
      exact List.mem_append_left _ (List.mem_append_right _ hw)
    | cons base others =>
      refine ⟨_, base :: others, out, create_ico_eq_cons hld, ?_, hld, hmap⟩
      simp only [St.print_out, St.writeF_out]
      exact List.mem_append_left _ (List.mem_append_left _
        (List.mem_append_right _ hw))
  · have h1 : genSizesLoop svg2rlg renderPM stg sizes =
        Except.error ("FileNotFoundError: " ++ "icon-win.svg") := by
      show genSizesLoop svg2rlg renderPM stg (16 :: [24, 32, 48, 64, 128, 256]) = _
      rw [genSizesLoop, svg_to_png_error_missing hsvg, except_error_bind]
    unfold gen_main genPhase1
    rw [h1, except_error_bind, except_error_bind]

theorem C4_witness :
    ((24 : Nat) ∈ ico_sizes) ∧
    (getFile ([("icon-win-16.png", FileData.png ⟨16, 16, "RGBA", []⟩)] : FS)
      (iconWinPng 24) = none) ∧
    (∀ s ∈ ico_sizes, ∀ fd,
      getFile ([("icon-win-16.png", FileData.png ⟨16, 16, "RGBA", []⟩)] : FS)
        (iconWinPng s) = some fd → ∃ img, fd = FileData.png img) ∧
    (getFile ([] : FS) "icon-win.svg" = none) ∧
    ((∃ st' imgs out,
      create_ico ⟨[("icon-win-16.png", FileData.png ⟨16, 16, "RGBA", []⟩)], [], []⟩ =
        Except.ok st' ∧
      ("Warning: " ++ iconWinPng 24 ++ " not found") ∈ st'.out ∧
      createIcoLoad ([("icon-win-16.png", FileData.png ⟨16, 16, "RGBA", []⟩)] : FS)
        ico_sizes = Except.ok (imgs, out) ∧
      imgs.map Img.size = (ico_sizes.filter (fun s => (getFile
        ([("icon-win-16.png", FileData.png ⟨16, 16, "RGBA", []⟩)] : FS)
        (iconWinPng s)).isSome)).map (fun s => (s, s))) ∧
    gen_main constParse exactRender ⟨[], [], []⟩ =
      Except.error ("FileNotFoundError: " ++ "icon-win.svg")) := by
  refine ⟨by decide, rfl, ?_, rfl, ?_⟩
  · intro s hs fd hfd
    fin_cases hs
    · exact ⟨⟨16, 16, "RGBA", []⟩, (Option.some.inj hfd).symm⟩
    all_goals exact Option.noConfusion hfd
  · refine C4_missing_input_behaviour constParse exactRender
      ⟨[("icon-win-16.png", FileData.png ⟨16, 16, "RGBA", []⟩)], [], []⟩
      ⟨[], [], []⟩ 24 (by decide) rfl ?_ rfl
    intro s hs fd hfd
    fin_cases hs
    · exact ⟨⟨16, 16, "RGBA", []⟩, (Option.some.inj hfd).symm⟩
    all_goals exact Option.noConfusion hfd

/-- C3: in every complete run of `gen_win_icons.main`, each of the seven
temporary files `icon-win-{size}.png` is removed, and every removal
event lies in the part of the trace that strictly follows the write of
`icon-win.ico` (no removal precedes it); after `main` returns none of
the seven files exists. -/
theorem C3_temps_removed_after_ico
    (svg2rlg : FileData → Option Drawing) (renderPM : Drawing → Rat → Img)
    (st st' : St) (h : gen_main svg2rlg renderPM st = Except.ok st') :
    (∀ s ∈ sizes, getFile st'.fs (iconWinPng s) = none) ∧
    ∃ pre post, st'.events = st.events ++ (pre ++ post) ∧
      Event.write "icon-win.ico" ∈ pre ∧
      (∀ e ∈ pre, ∀ f, e ≠ Event.remove f) ∧
      (∀ s ∈ sizes, Event.remove (iconWinPng s) ∈ post) := by
  obtain ⟨stP, hP, rfl⟩ := gen_main_ok_inv h
  obtain ⟨htemps, _, _, _, ⟨evP, hevP, hicoP, hevPw⟩⟩ := genPhase1_ok_inv hP
  constructor
  · intro s hs
    simp only [St.print_fs]
    exact genCleanupLoop_fs_mem (List.mem_map_of_mem iconWinPng hs)
  · obtain ⟨evC, hevC, hremC, hallC⟩ := genCleanupLoop_events stP temp_files
    refine ⟨evP, evC, ?_, hicoP, ?_, ?_⟩
    · simp only [St.print_events]
      rw [hevC, hevP, List.append_assoc]
    · intro e he f
      obtain ⟨g, hg⟩ := hevPw e he
      subst hg
      exact fun hh => Event.noConfusion hh
    · intro s hs
      apply hallC (by decide) (iconWinPng s) (List.mem_map_of_mem iconWinPng hs)
      obtain ⟨img, hg, _, _⟩ := htemps s hs
      simp [hg]

theorem C3_witness :
    fileAfterGen constParse exactRender ⟨svgFs, [], []⟩ (iconWinPng 128) = none := by
  obtain ⟨st', hrun⟩ : ∃ x, gen_main constParse exactRender ⟨svgFs, [], []⟩ =
      Except.ok x := ⟨_, rfl⟩
  have hc := C3_temps_removed_after_ico constParse exactRender ⟨svgFs, [], []⟩ st' hrun
  unfold fileAfterGen
  rw [hrun]
  exact hc.1 128 (by decide)

/-- C10: the cleanup of `gen_win_icons.main` removes exactly the seven
temporary `icon-win-{size}.png` files and nothing else: after a
successful run the temporaries are gone, every other file is exactly as
it was at the end of phase 1 (just before cleanup), `icon-win.ico`
survives holding the single 16 x 16 base frame that Pillow's saver kept,
the tray icon and all Store and general icons survive at their sizes,
and the 128 px size is generated (it is in `sizes`) but never embedded
in the ICO (it is not in `ico_sizes`, and no embedded frame is
128 px wide). -/
theorem C10_cleanup_frame
    (svg2rlg : FileData → Option Drawing) (renderPM : Drawing → Rat → Img)
    (st stP st' : St)
    (hP : genPhase1 svg2rlg renderPM st = Except.ok stP)
    (h : gen_main svg2rlg renderPM st = Except.ok st') :
    (∀ n ∈ temp_files, getFile st'.fs n = none) ∧
    (∀ q, q ∉ temp_files → getFile st'.fs q = getFile stP.fs q) ∧
    (∃ img, getFile st'.fs "icon-win.ico" = some (FileData.ico [img]) ∧
      img.width = 16 ∧ img.height = 16 ∧ img.width ≠ 128) ∧
    (∃ img, getFile st'.fs "tray-icon-win.png" = some (FileData.png img) ∧
      img.width = 32 ∧ img.height = 32) ∧
    (∀ p ∈ store_sizes ++ general_icons, ∃ img,
      getFile st'.fs p.1 = some (FileData.png img) ∧
      img.width = p.2 ∧ img.height = p.2) ∧
    (128 ∈ sizes ∧ 128 ∉ ico_sizes) := by
  obtain ⟨stP2, hP2, rfl⟩ := gen_main_ok_inv h
  rw [hP] at hP2
  injection hP2 with hP2
  subst hP2
  obtain ⟨htemps, ⟨ibase, hico, hbw, hbh, _⟩, ⟨tray, htray, htw, hth⟩, htables, _⟩ :=
    genPhase1_ok_inv hP
  have hframe : ∀ q, q ∉ temp_files →
      getFile ((genCleanupLoop stP temp_files).print
        "Done! Windows icons generated successfully.").fs q = getFile stP.fs q := by
    intro q hq
    simp only [St.print_fs]
    exact genCleanupLoop_fs_not_mem hq
  refine ⟨?_, hframe, ?_, ?_, ?_, by decide⟩
  · intro n hn
    simp only [St.print_fs]
    exact genCleanupLoop_fs_mem hn
  · exact ⟨ibase, by rw [hframe _ (by decide)]; exact hico, hbw, hbh,
      by rw [hbw]; decide⟩
  · exact ⟨tray, by rw [hframe _ (by decide)]; exact htray, htw, hth⟩
  · intro p hp
    obtain ⟨img, hg, hw, hh⟩ := htables p.1 p.2 (by simpa using hp)
    have hnt : p.1 ∉ temp_files := by
      have hall : ∀ q ∈ store_sizes ++ general_icons, q.1 ∉ temp_files := by decide
      exact hall p hp
    exact ⟨img, by rw [hframe _ hnt]; exact hg, hw, hh⟩

theorem C10_witness :
    (fileAfterGen constParse exactRender ⟨svgFs, [], []⟩ "icon-win.ico" ≠ none) ∧
    ((128 : Nat) ∈ sizes ∧ (128 : Nat) ∉ ico_sizes) := by
  obtain ⟨stP, hPc⟩ : ∃ x, genPhase1 constParse exactRender ⟨svgFs, [], []⟩ =
      Except.ok x := ⟨_, rfl⟩
  obtain ⟨st', hrun⟩ : ∃ x, gen_main constParse exactRender ⟨svgFs, [], []⟩ =
      Except.ok x := ⟨_, rfl⟩
  have hc := C10_cleanup_frame constParse exactRender ⟨svgFs, [], []⟩ stP st' hPc hrun
  constructor
  · unfold fileAfterGen
    rw [hrun]
    obtain ⟨img, hico, _⟩ := hc.2.2.1
    simp [hico]
  · exact hc.2.2.2.2.2

/-- C2 counterexample: with only `icon-win-16.png` present (a run in
which some inputs do not exist), `create_ico` still writes
`icon-win.ico`, but its image-count field is 1, not 6. -/
theorem C2_counterexample :
    getFile ([("icon-win-16.png", FileData.png ⟨16, 16, "RGBA", []⟩)] : FS)
      (iconWinPng 24) = none ∧
    icoCountOfRun (create_ico
      ⟨[("icon-win-16.png", FileData.png ⟨16, 16, "RGBA", []⟩)], [], []⟩) = some 1 ∧
    (1 : Nat) ≠ 6 :=
  ⟨rfl, rfl, by decide⟩

/-- C2 (amended): whenever an ICO file is written, its image-count field
is 1: Pillow's saver ignores every requested size larger than the base
image, and both scripts pass the smallest frame as base, so exactly one
frame is embedded — in every successful `gen_win_icons` run, and in
every `create_ico` run with at least one existing input (when no input
exists, no ICO is written at all). -/
theorem C2_amended_ico_count
    (svg2rlg : FileData → Option Drawing) (renderPM : Drawing → Rat → Img)
    (stg stg' stc : St)
    (hgen : gen_main svg2rlg renderPM stg = Except.ok stg')
    (hpng : ∀ s ∈ ico_sizes, ∀ fd, getFile stc.fs (iconWinPng s) = some fd →
      ∃ img, fd = FileData.png img)
    (hsome : ∃ s ∈ ico_sizes, (getFile stc.fs (iconWinPng s)).isSome) :
    (∃ img, getFile stg'.fs "icon-win.ico" = some (FileData.ico [img]) ∧
      icoCountField (FileData.ico [img]) = some 1) ∧
    (∃ st', create_ico stc = Except.ok st' ∧
      ∃ img, getFile st'.fs "icon-win.ico" = some (FileData.ico [img]) ∧
        icoCountField (FileData.ico [img]) = some 1) := by
  constructor
  · obtain ⟨stP, hP, rfl⟩ := gen_main_ok_inv hgen
    obtain ⟨_, ⟨img, hico, _, _, _⟩, _, _, _⟩ := genPhase1_ok_inv hP
    refine ⟨img, ?_, rfl⟩
    simp only [St.print_fs]
    rw [genCleanupLoop_fs_not_mem (by decide)]
    exact hico
  · obtain ⟨imgs, out, hld, hmap, _, _⟩ := createIcoLoad_spec hpng
    cases imgs with
    | nil =>
      obtain ⟨s, hs, hsome⟩ := hsome
      have hmem : s ∈ ico_sizes.filter
          (fun s => (getFile stc.fs (iconWinPng s)).isSome) :=
        List.mem_filter.mpr ⟨hs, hsome⟩
      have hfil : ico_sizes.filter
          (fun s => (getFile stc.fs (iconWinPng s)).isSome) = [] := by
        have h' := hmap.symm
        simpa using h'
      rw [hfil] at hmem
      exact absurd hmem (List.not_mem_nil s)
    | cons base others =>
      refine ⟨_, create_ico_eq_cons hld, base, ?_, rfl⟩
      have hbo := create_ico_frames_base_only hld
      simp only [St.print_fs, St.writeF_fs]
      rw [getFile_setFile_self, hbo]

theorem C2_witness :
    (icoCountOfRun (gen_main constParse exactRender ⟨svgFs, [], []⟩) = some 1) ∧
    (icoCountOfRun (create_ico
      ⟨[("icon-win-16.png", FileData.png ⟨16, 16, "RGBA", []⟩),
        ("icon-win-24.png", FileData.png ⟨24, 24, "RGBA", []⟩)], [], []⟩) = some 1) := by
  obtain ⟨stg', hrun⟩ : ∃ x, gen_main constParse exactRender ⟨svgFs, [], []⟩ =
      Except.ok x := ⟨_, rfl⟩
  have hc := C2_amended_ico_count constParse exactRender ⟨svgFs, [], []⟩ stg'
    ⟨[("icon-win-16.png", FileData.png ⟨16, 16, "RGBA", []⟩),
      ("icon-win-24.png", FileData.png ⟨24, 24, "RGBA", []⟩)], [], []⟩ hrun
    (by
      intro s hs fd hfd
      fin_cases hs
      · exact ⟨⟨16, 16, "RGBA", []⟩, (Option.some.inj hfd).symm⟩
      · exact ⟨⟨24, 24, "RGBA", []⟩, (Option.some.inj hfd).symm⟩
      all_goals exact Option.noConfusion hfd)
    ⟨16, by decide, rfl⟩
  obtain ⟨⟨imgg, hicog, hcntg⟩, ⟨stc', hok, imgc, hicoc, hcntc⟩⟩ := hc
  constructor
  · unfold icoCountOfRun
    rw [hrun]
    simp only [hicog]
    exact hcntg
  · unfold icoCountOfRun
    rw [hok]
    simp only [hicoc]
    exact hcntc

/-- C6 counterexample: `StoreLogo-win.png` is an entry of the hardcoded
Store table rendered at 50 x 50, yet its filename does not contain the
digits `50`: the concrete run below writes it as a 50 x 50 PNG under a
fixed name that does not encode its pixel dimensions. -/
theorem C6_counterexample :
    ("StoreLogo-win.png", 50) ∈ store_sizes ∧
    ¬ nameEncodesSize "StoreLogo-win.png" 50 ∧
    fileAfterGen constParse exactRender ⟨svgFs, [], []⟩ "StoreLogo-win.png" =
      some (FileData.png ⟨50, 50, "RGB", []⟩) :=
  ⟨by decide, by decide, by decide⟩

/-- C6 (amended): every entry of the hardcoded filename-to-size tables
except `StoreLogo-win.png` has the rendered size encoded in its filename
(the decimal size occurs in the name), and in every successful run each
Store and general table file is on disk at exactly its table size. -/
theorem C6_amended_names_encode_sizes
    (svg2rlg : FileData → Option Drawing) (renderPM : Drawing → Rat → Img)
    (st st' : St) (h : gen_main svg2rlg renderPM st = Except.ok st') :
    (∀ p ∈ sizes.map (fun s => (iconWinPng s, s)) ++ store_sizes ++ general_icons,
      p.1 ≠ "StoreLogo-win.png" → nameEncodesSize p.1 p.2) ∧
    (∀ p ∈ store_sizes ++ general_icons, ∃ img,
      getFile st'.fs p.1 = some (FileData.png img) ∧
      img.width = p.2 ∧ img.height = p.2) := by
  refine ⟨by decide, ?_⟩
  obtain ⟨stP, hP, rfl⟩ := gen_main_ok_inv h
  obtain ⟨_, _, _, htables, _⟩ := genPhase1_ok_inv hP
  intro p hp
  obtain ⟨img, hg, hw, hh⟩ := htables p.1 p.2 (by simpa using hp)
  have hnt : p.1 ∉ temp_files := by
    have hall : ∀ q ∈ store_sizes ++ general_icons, q.1 ∉ temp_files := by decide
    exact hall p hp
  refine ⟨img, ?_, hw, hh⟩
  simp only [St.print_fs]
  rw [genCleanupLoop_fs_not_mem hnt]
  exact hg

theorem C6_witness :
    (fileAfterGen constParse exactRender ⟨svgFs, [], []⟩ "Square30x30Logo-win.png"
      ≠ none) ∧
    nameEncodesSize "Square30x30Logo-win.png" 30 := by
  obtain ⟨st', hrun⟩ : ∃ x, gen_main constParse exactRender ⟨svgFs, [], []⟩ =
      Except.ok x := ⟨_, rfl⟩
  have hc := C6_amended_names_encode_sizes constParse exactRender
    ⟨svgFs, [], []⟩ st' hrun
  constructor
  · unfold fileAfterGen
    rw [hrun]
    obtain ⟨img, hg, _, _⟩ := hc.2 ("Square30x30Logo-win.png", 30) (by decide)
    simp [hg]
  · exact hc.1 ("Square30x30Logo-win.png", 30) (by decide) (by decide)
